import Mathlib

/-!
Shallow embedding of the task-assistant bot's parsing and task-lifecycle core
(package `utils`: ParseDate, ParseAddCommand, SplitCommandArgs; package
`models`: Task and its methods; package `repository`: SqliteTaskRepository
query operations), together with theorems settling the specification claims.

Strings are modelled as Lean `String` / `List Char`; Go's byte-oriented
operations are translated at the character level, which coincides with the
byte level on every operation the code performs (all delimiter and quote
characters are single-byte ASCII, so no byte of a multi-byte UTF-8 character
can ever compare equal to them; the one place byte length matters,
`len(description)` in the validator, is modelled by an explicit UTF-8 byte
count).  `time.Time` is modelled by a wall-clock record `GoTime`; its
chronological order is the lexicographic order on the fields, which agrees
with Go's instant comparison and with SQLite's lexicographic comparison of
the stored RFC3339 strings for times rendered in one fixed zone.
-/

set_option maxRecDepth 100000

deriving instance DecidableEq for Except

namespace Assistente

/-! ## Time model (`time.Time`) -/

/-- Wall-clock instant: year, month, day, hour, minute, second.  Mirrors the
fields of a Go `time.Time` in a fixed location (the program always works in
`time.Local`). -/
structure GoTime where
  year : Nat
  month : Nat
  day : Nat
  hour : Nat
  minute : Nat
  second : Nat
deriving DecidableEq, Repr

/-- Go's zero `time.Time`: January 1, year 1, 00:00:00.  `Time.IsZero`
compares against this value. -/
def timeZero : GoTime := ⟨1, 1, 1, 0, 0, 0⟩

/-- Chronological `≤` on instants: lexicographic on the wall-clock fields
(the order Go's `Time.Before`/`Time.After` induce for times in one zone). -/
def GoTime.leb (a b : GoTime) : Bool :=
  decide (a.year < b.year ∨ (a.year = b.year ∧
    (a.month < b.month ∨ (a.month = b.month ∧
      (a.day < b.day ∨ (a.day = b.day ∧
        (a.hour < b.hour ∨ (a.hour = b.hour ∧
          (a.minute < b.minute ∨ (a.minute = b.minute ∧
            a.second ≤ b.second))))))))))

/-- Chronological strict `<` on instants; `u.After(t)` in Go is
`GoTime.ltb t u` here. -/
def GoTime.ltb (a b : GoTime) : Bool :=
  decide (a.year < b.year ∨ (a.year = b.year ∧
    (a.month < b.month ∨ (a.month = b.month ∧
      (a.day < b.day ∨ (a.day = b.day ∧
        (a.hour < b.hour ∨ (a.hour = b.hour ∧
          (a.minute < b.minute ∨ (a.minute = b.minute ∧
            a.second < b.second))))))))))

theorem GoTime.leb_total (a b : GoTime) : a.leb b = true ∨ b.leb a = true := by
  simp only [GoTime.leb, decide_eq_true_eq]
  omega

theorem GoTime.leb_trans {a b c : GoTime} (h1 : a.leb b = true)
    (h2 : b.leb c = true) : a.leb c = true := by
  simp only [GoTime.leb, decide_eq_true_eq] at h1 h2 ⊢
  omega

/-! ## Go string primitives -/

/-- `unicode.IsSpace`: the characters Go's `strings.TrimSpace` strips
(the full Unicode `White_Space` set). -/
def goIsSpace (c : Char) : Bool :=
  let n := c.toNat
  (9 ≤ n ∧ n ≤ 13) ∨ n = 32 ∨ n = 0x85 ∨ n = 0xA0 ∨ n = 0x1680 ∨
    (0x2000 ≤ n ∧ n ≤ 0x200A) ∨ n = 0x2028 ∨ n = 0x2029 ∨ n = 0x202F ∨
    n = 0x205F ∨ n = 0x3000

/-- The regexp class `\s` of Go's RE2 (Perl flavour): `[\t\n\f\r ]`. -/
def reIsSpace (c : Char) : Bool :=
  c = ' ' ∨ c = '\t' ∨ c = '\n' ∨ c = Char.ofNat 12 ∨ c = '\r'

/-- `strings.TrimSpace` on a character list. -/
def goTrimSpace (l : List Char) : List Char :=
  ((l.dropWhile goIsSpace).reverse.dropWhile goIsSpace).reverse

/-- UTF-8 size in bytes of one character (Go strings are UTF-8 bytes). -/
def charUtf8Size (c : Char) : Nat :=
  if c.toNat < 0x80 then 1
  else if c.toNat < 0x800 then 2
  else if c.toNat < 0x10000 then 3
  else 4

/-- Go's `len` on a string: its UTF-8 byte count. -/
def goLen (s : String) : Nat :=
  s.data.foldl (fun n c => n + charUtf8Size c) 0

/-! ## Date parser (`utils.ParseDate`) -/

/-- Errors produced by the `utils` parsing functions; each constructor stands
for one distinct `errors.New` value in the source. -/
inductive UtilErr where
  /-- "empty command text" -/
  | emptyCommand : UtilErr
  /-- "missing task description" -/
  | missingDescription : UtilErr
  /-- "task description cannot be empty" -/
  | emptyDescription : UtilErr
  /-- "empty date string" (the spec's `InvalidInput`) -/
  | invalidInput : UtilErr
  /-- "invalid date format. Supported formats: ..." (the spec's
  `InvalidFormat`); carries the format names the message shows. -/
  | invalidFormat (supported : List String) : UtilErr
deriving DecidableEq, Repr

def isDigit (c : Char) : Bool := '0' ≤ c ∧ c ≤ '9'

def digit2 (a b : Char) : Nat := (a.toNat - 48) * 10 + (b.toNat - 48)

def digit4 (a b c d : Char) : Nat :=
  ((a.toNat - 48) * 10 + (b.toNat - 48)) * 100 + digit2 c d

def isLeapYear (y : Nat) : Bool :=
  y % 4 = 0 ∧ (y % 100 ≠ 0 ∨ y % 400 = 0)

/-- `daysIn` from Go's time package: days in a month, leap-year aware. -/
def daysInMonth (y m : Nat) : Nat :=
  if m = 2 then (if isLeapYear y then 29 else 28)
  else if m = 4 ∨ m = 6 ∨ m = 9 ∨ m = 11 then 30
  else 31

/-- The range checks Go's `time.Parse` applies after reading the fields. -/
def validYMD (y m d : Nat) : Bool :=
  1 ≤ m ∧ m ≤ 12 ∧ 1 ≤ d ∧ d ≤ daysInMonth y m

/-- Layout `2006-01-02`-style: 4-digit year, separator, 2-digit month,
separator, 2-digit day, end of input (Go's `time.Parse` demands exact field
widths and consumes the whole value). -/
def parseYMD (sep : Char) : List Char → Option (Nat × Nat × Nat)
  | [y1, y2, y3, y4, s1, m1, m2, s2, d1, d2] =>
    if isDigit y1 ∧ isDigit y2 ∧ isDigit y3 ∧ isDigit y4 ∧ s1 = sep ∧
        isDigit m1 ∧ isDigit m2 ∧ s2 = sep ∧ isDigit d1 ∧ isDigit d2 ∧
        validYMD (digit4 y1 y2 y3 y4) (digit2 m1 m2) (digit2 d1 d2) then
      some (digit4 y1 y2 y3 y4, digit2 m1 m2, digit2 d1 d2)
    else none
  | _ => none

/-- Layout `02.01.2006`-style: 2-digit day, separator, 2-digit month,
separator, 4-digit year. -/
def parseDMY (sep : Char) : List Char → Option (Nat × Nat × Nat)
  | [d1, d2, s1, m1, m2, s2, y1, y2, y3, y4] =>
    if isDigit d1 ∧ isDigit d2 ∧ s1 = sep ∧ isDigit m1 ∧ isDigit m2 ∧
        s2 = sep ∧ isDigit y1 ∧ isDigit y2 ∧ isDigit y3 ∧ isDigit y4 ∧
        validYMD (digit4 y1 y2 y3 y4) (digit2 m1 m2) (digit2 d1 d2) then
      some (digit4 y1 y2 y3 y4, digit2 m1 m2, digit2 d1 d2)
    else none
  | _ => none

/-- Layout `01/02/2006`-style (US): 2-digit month, separator, 2-digit day,
separator, 4-digit year. -/
def parseMDY (sep : Char) : List Char → Option (Nat × Nat × Nat)
  | [m1, m2, s1, d1, d2, s2, y1, y2, y3, y4] =>
    if isDigit m1 ∧ isDigit m2 ∧ s1 = sep ∧ isDigit d1 ∧ isDigit d2 ∧
        s2 = sep ∧ isDigit y1 ∧ isDigit y2 ∧ isDigit y3 ∧ isDigit y4 ∧
        validYMD (digit4 y1 y2 y3 y4) (digit2 m1 m2) (digit2 d1 d2) then
      some (digit4 y1 y2 y3 y4, digit2 m1 m2, digit2 d1 d2)
    else none
  | _ => none

/-- The six layouts of `ParseDate`'s `formats` slice, in source order:
`2006-01-02`, `02.01.2006`, `02/01/2006`, `2006/01/02`, `02-01-2006`,
`01/02/2006`. -/
def dateFormats : List (List Char → Option (Nat × Nat × Nat)) :=
  [parseYMD '-', parseDMY '.', parseDMY '/', parseYMD '/', parseDMY '-',
    parseMDY '/']

/-- A parser that never succeeds; default element for out-of-range indices. -/
def noFormat : List Char → Option (Nat × Nat × Nat) := fun _ => none

/-- First success of a parser list on one input: the `for _, format :=
range formats` loop that returns on the first nil-error parse. -/
def firstSome (fs : List (List Char → Option (Nat × Nat × Nat)))
    (s : List Char) : Option (Nat × Nat × Nat) :=
  match fs with
  | [] => none
  | f :: rest =>
    match f s with
    | some v => some v
    | none => firstSome rest s

/-- The format names shown in `ParseDate`'s error message
"invalid date format. Supported formats: YYYY-MM-DD, DD.MM.YYYY,
DD/MM/YYYY" — only the first three of the six supported layouts. -/
def shownFormats : List String := ["YYYY-MM-DD", "DD.MM.YYYY", "DD/MM/YYYY"]

/-- Names of all six layouts the parser actually supports (the list of
section 4.1 of the specification). -/
def allSixFormats : List String :=
  ["YYYY-MM-DD", "DD.MM.YYYY", "DD/MM/YYYY", "YYYY/MM/DD", "DD-MM-YYYY",
    "MM/DD/YYYY"]

/-- `utils.ParseDate`: trim; fail on empty; try the six formats in order;
on the first success return that calendar date at 23:59:59. -/
def ParseDate (dateStr : String) : Except UtilErr GoTime :=
  if goTrimSpace dateStr.data = [] then .error .invalidInput
  else
    match firstSome dateFormats (goTrimSpace dateStr.data) with
    | some (y, m, d) => .ok ⟨y, m, d, 23, 59, 59⟩
    | none => .error (.invalidFormat shownFormats)

/-! ## Add-command parser (`utils.ParseAddCommand`) -/

/-- The double-quote character. -/
def dquote : Char := Char.ofNat 34

/-- The single-quote character. -/
def squote : Char := Char.ofNat 39

/-- Result of a Go function that can also abort the process: `crashes`
models a runtime panic (here: the out-of-range slice
`description[1:len(description)-1]`). -/
inductive GoResult (α : Type) where
  | ok (v : α) : GoResult α
  | err (e : UtilErr) : GoResult α
  | crashes : GoResult α
deriving DecidableEq, Repr

/-- `utils.TaskInput`: parsed `/add` arguments.  As in Go, `deadline` holds
the zero time when `hasDeadline` is false. -/
structure TaskInput where
  description : String
  deadline : GoTime
  hasDeadline : Bool
deriving DecidableEq, Repr

/-- The deadline-clause keyword `срок:` of the regexp
`\s+срок:\s*(\S+)`. -/
def deadlineKeyword : List Char := ['с', 'р', 'о', 'к', ':']

/-- Does the regexp `\s+срок:\s*(\S+)` match at the very start of `s`?
If so, return the captured date token and the remainder after the match.
Greediness is deterministic here: `\s+`/`\s*` must take the maximal
whitespace run (the following atom rejects whitespace), and `\S+` the
maximal non-whitespace run (it is last and `FindStringSubmatch` prefers
longer leftmost matches of a final greedy group). -/
def matchClauseAt (s : List Char) : Option (List Char × List Char) :=
  let sp := s.takeWhile reIsSpace
  if sp = [] then none
  else
    let r1 := s.dropWhile reIsSpace
    if r1.take 5 = deadlineKeyword then
      let r2 := (r1.drop 5).dropWhile reIsSpace
      let tok := r2.takeWhile (fun c => !reIsSpace c)
      if tok = [] then none else some (tok, r2.drop tok.length)
    else none

/-- Leftmost match of the deadline-clause regexp: returns
`(text before the match, captured date token, text after the match)`.
Models `deadlineRegex.FindStringSubmatch`. -/
def findClause : List Char → Option (List Char × List Char × List Char)
  | [] => none
  | c :: cs =>
    match matchClauseAt (c :: cs) with
    | some (tok, rest) => some ([], tok, rest)
    | none =>
      match findClause cs with
      | some (pre, tok, rest) => some (c :: pre, tok, rest)
      | none => none

/-- Remove every non-overlapping match of the deadline-clause regexp,
scanning left to right (models `deadlineRegex.ReplaceAllString(text, "")`).
The fuel argument only serves termination: each step either consumes one
character or a whole match (at least seven characters), so `s.length` fuel
is always enough. -/
def removeClausesAux : Nat → List Char → List Char
  | 0, s => s
  | _ + 1, [] => []
  | fuel + 1, c :: cs =>
    match matchClauseAt (c :: cs) with
    | some (_, rest) => removeClausesAux fuel rest
    | none => c :: removeClausesAux fuel cs

def removeClauses (s : List Char) : List Char :=
  removeClausesAux s.length s

/-- Is `l` wrapped in one matching pair of quotes, i.e. does it both start
and end with `"` or both start and end with a single quote?  Mirrors the
`strings.HasPrefix/HasSuffix` conjunction in the source (a one-character
string consisting of a sole quote satisfies it). -/
def quoteWrapped (l : List Char) : Bool :=
  (l.head? = some dquote ∧ l.getLast? = some dquote) ∨
    (l.head? = some squote ∧ l.getLast? = some squote)

/-- `description[1 : len(description)-1]`: defined only when the byte
bounds are legal (`len ≥ 2`); the caller models the `len = 1` case as the
runtime panic Go raises for the slice `[1:0]`. -/
def stripEnds (l : List Char) : List Char := (l.drop 1).dropLast

/-- Shared tail of `ParseAddCommand`: trim, strip one wrapping quote pair,
trim again, reject an empty description.  When the trimmed text is a sole
quote character the Go slice `description[1:0]` panics. -/
def finishDescription (t : List Char) (dl : GoTime) (hasD : Bool) :
    GoResult TaskInput :=
  let d0 := goTrimSpace t
  if quoteWrapped d0 then
    if d0.length = 1 then .crashes
    else
      let d1 := goTrimSpace (stripEnds d0)
      if d1 = [] then .err .emptyDescription
      else .ok ⟨String.mk d1, dl, hasD⟩
  else
    let d1 := goTrimSpace d0
    if d1 = [] then .err .emptyDescription
    else .ok ⟨String.mk d1, dl, hasD⟩

/-- Strip a leading `/add` (any four characters `/add`, as
`strings.HasPrefix` does) and re-trim, as lines 29-31 of the source do. -/
def stripAddPrefix (t : List Char) : List Char :=
  if t.take 4 = ['/', 'a', 'd', 'd'] then goTrimSpace (t.drop 4) else t

/-- `utils.ParseAddCommand`: reject blank input; strip a leading `/add`;
reject an empty remainder; extract the first deadline clause, parse its
date token (propagating `ParseDate` errors unchanged) and delete every
clause occurrence; then trim, unquote and validate the description. -/
def ParseAddCommand (text : String) : GoResult TaskInput :=
  if goTrimSpace text.data = [] then .err .emptyCommand
  else if stripAddPrefix (goTrimSpace text.data) = [] then
    .err .missingDescription
  else
    match findClause (stripAddPrefix (goTrimSpace text.data)) with
    | some (_, tok, _) =>
      match ParseDate (String.mk tok) with
      | .error e => .err e
      | .ok dl =>
        finishDescription (removeClauses (stripAddPrefix (goTrimSpace text.data)))
          dl true
    | none => finishDescription (stripAddPrefix (goTrimSpace text.data)) timeZero false

/-! ## Argument splitter (`utils.SplitCommandArgs`) -/

/-- State machine of `SplitCommandArgs`: `quote` is the active quote
character (`inQuotes`/`quoteChar` in the source), `cur` the current
argument accumulated in reverse. -/
def splitArgsAux : List Char → Option Char → List Char → List String
  | [], _, cur => if cur = [] then [] else [String.mk cur.reverse]
  | c :: cs, none, cur =>
    if c = dquote ∨ c = squote then splitArgsAux cs (some c) cur
    else if c = ' ' ∨ c = '\t' then
      if cur = [] then splitArgsAux cs none []
      else String.mk cur.reverse :: splitArgsAux cs none []
    else splitArgsAux cs none (c :: cur)
  | c :: cs, some q, cur =>
    if c = q then splitArgsAux cs none cur
    else splitArgsAux cs (some q) (c :: cur)

/-- `utils.SplitCommandArgs`: split on runs of space/tab outside quotes;
a quote character toggles quoting and is dropped; arguments are flushed
only when non-empty. -/
def SplitCommandArgs (text : String) : List String :=
  splitArgsAux text.data none []

/-! ## Task entity (`models.Task`) -/

def StatusActive : String := "active"
def StatusDone : String := "done"
def StatusPostponed : String := "postponed"

/-- `models.Task`.  As in the Go struct, `deadline` is a plain time value:
"no deadline" is encoded by the zero time, not by an option type. -/
structure Task where
  id : Int
  userID : Int
  originalDescription : String
  llmProcessedDesc : String
  deadline : GoTime
  status : String
  createdAt : GoTime
  updatedAt : GoTime
deriving DecidableEq, Repr

/-- The reasons `Task.Validate` can fail; one constructor per
`errors.New` in the source (the spec's `InvalidUser`, `EmptyDescription`,
`DescriptionTooLong`, `InvalidStatus`). -/
inductive ValidationError where
  | invalidUser : ValidationError
  | emptyDescription : ValidationError
  | descriptionTooLong : ValidationError
  | invalidStatus : ValidationError
deriving DecidableEq, Repr

/-- `models.isValidStatus`. -/
def isValidStatus (status : String) : Bool :=
  status = StatusActive ∨ status = StatusDone ∨ status = StatusPostponed

/-- `models.Task.Validate`; `none` is Go's `nil` error.  The length guard
is Go's `len(t.OriginalDescription) > 1000`, a UTF-8 byte count. -/
def Task.Validate (t : Task) : Option ValidationError :=
  if t.userID ≤ 0 then some .invalidUser
  else if goTrimSpace t.originalDescription.data = [] then
    some .emptyDescription
  else if goLen t.originalDescription > 1000 then some .descriptionTooLong
  else if t.status ≠ "" ∧ ¬ isValidStatus t.status then some .invalidStatus
  else none

/-- `models.Task.IsDone`. -/
def Task.IsDone (t : Task) : Bool := t.status = StatusDone

/-- `models.Task.HasDeadline`: `!t.Deadline.IsZero()`. -/
def Task.HasDeadline (t : Task) : Bool := t.deadline ≠ timeZero

/-- `models.Task.IsOverdue` with the evaluation instant (`time.Now()`)
made an explicit argument. -/
def Task.IsOverdue (t : Task) (now : GoTime) : Bool :=
  if !t.HasDeadline || t.IsDone then false
  else GoTime.ltb t.deadline now

/-! ## Repository (`repository.SqliteTaskRepository`) -/

/-- The stored table is a list of task rows.  A row's `deadline` column is
NULL exactly when the inserted task had `HasDeadline() = false`
(`AddTask`/`UpdateTask` bind NULL in that case and `queryTasks` maps NULL
back to the zero time), so the zero-deadline convention of `Task` carries
over unchanged and rows are represented by `Task` itself. -/
abbrev TaskDB := List Task

/-- Errors of the repository operations relevant to the claims. -/
inductive RepoError where
  /-- "task validation failed: ..." wrapping the validator's reason. -/
  | validationFailed (e : ValidationError) : RepoError
  /-- "task with id %d not found" (zero rows affected). -/
  | notFound : RepoError
deriving DecidableEq, Repr

/-- The filter of `GetActiveTasks`'s query:
`WHERE user_id = ? AND status = 'active'`. -/
def activeRows (userID : Int) (db : TaskDB) : TaskDB :=
  db.filter (fun t => decide (t.userID = userID ∧ t.status = StatusActive))

/-- The sort key of `GetActiveTasks`'s `ORDER BY`:
`CASE WHEN deadline IS NOT NULL THEN deadline ELSE created_at END`.
NULL-ness of the stored column is `HasDeadline` (see `TaskDB`). -/
def activeKey (t : Task) : GoTime :=
  if t.HasDeadline then t.deadline else t.createdAt

/-- Row order induced by the sort key.  SQLite compares the stored RFC3339
strings lexicographically, which for one fixed zone is exactly the
chronological order `GoTime.leb`. -/
def taskLE (a b : Task) : Prop :=
  GoTime.leb (activeKey a) (activeKey b) = true

instance : DecidableRel taskLE := fun a b => by
  unfold taskLE; infer_instance

instance : IsTotal Task taskLE :=
  ⟨fun a b => GoTime.leb_total (activeKey a) (activeKey b)⟩

instance : IsTrans Task taskLE :=
  ⟨fun _ _ _ h1 h2 => GoTime.leb_trans h1 h2⟩

/-- `SqliteTaskRepository.GetActiveTasks`: the user's active rows, ordered
ascending by `activeKey`. -/
def GetActiveTasks (userID : Int) (db : TaskDB) : TaskDB :=
  List.insertionSort taskLE (activeRows userID db)

/-- The `SET` clause of `UpdateTask`'s UPDATE statement applied to one
matching row `r` (every column except `id`, `user_id` and `created_at`). -/
def applyUpdate (r t : Task) : Task :=
  { r with
    originalDescription := t.originalDescription
    llmProcessedDesc := t.llmProcessedDesc
    deadline := t.deadline
    status := t.status
    updatedAt := t.updatedAt }

/-- `SqliteTaskRepository.UpdateTask`: validate, stamp `UpdatedAt := now`,
run the UPDATE by id, and report `notFound` iff zero rows were affected.
Returns the table after the statement. -/
def UpdateTask (db : TaskDB) (t : Task) (now : GoTime) :
    Except RepoError TaskDB :=
  match t.Validate with
  | some e => .error (.validationFailed e)
  | none =>
    if db.countP (fun r => decide (r.id = t.id)) = 0 then .error .notFound
    else
      .ok (db.map (fun r =>
        if r.id = t.id then applyUpdate r { t with updatedAt := now } else r))

/-- `SqliteTaskRepository.DeleteTask`: run the DELETE by id and report
`notFound` iff zero rows were affected. -/
def DeleteTask (db : TaskDB) (id : Int) : Except RepoError TaskDB :=
  if db.countP (fun r => decide (r.id = id)) = 0 then .error .notFound
  else .ok (db.filter (fun r => decide (r.id ≠ id)))

/-! ## Concrete fixtures used by the claim theorems -/

/-- A task whose deadline field holds exactly the zero instant. -/
def zeroDeadlineTask : Task :=
  { id := 1, userID := 42, originalDescription := "write report",
    llmProcessedDesc := "", deadline := timeZero, status := StatusActive,
    createdAt := ⟨2025, 1, 2, 10, 0, 0⟩, updatedAt := ⟨2025, 1, 2, 10, 0, 0⟩ }

/-- Evaluation instant used in overdue examples. -/
def now2025 : GoTime := ⟨2025, 6, 1, 12, 0, 0⟩

/-- A postponed task whose deadline lies before `now2025`. -/
def postponedPastTask : Task :=
  { id := 3, userID := 9, originalDescription := "call the bank",
    llmProcessedDesc := "", deadline := ⟨2025, 5, 20, 23, 59, 59⟩,
    status := StatusPostponed, createdAt := ⟨2025, 5, 1, 9, 0, 0⟩,
    updatedAt := ⟨2025, 5, 1, 9, 0, 0⟩ }

/-- A done task whose deadline lies before `now2025`. -/
def doneOverdueTask : Task :=
  { id := 4, userID := 9, originalDescription := "pay the rent",
    llmProcessedDesc := "", deadline := ⟨2025, 5, 20, 23, 59, 59⟩,
    status := StatusDone, createdAt := ⟨2025, 5, 1, 9, 0, 0⟩,
    updatedAt := ⟨2025, 5, 1, 9, 0, 0⟩ }

/-! ## C1 -/

/-- C1: the claim says `ParseAddCommand` never aborts the caller, for any
input — including `/add "` whose remaining description is a single quote.
In fact on `/add "` the quote-stripping slice `description[1:0]` is out of
range and the function panics, which this theorem records by evaluating
the embedded code at exactly that input. -/
theorem parseAddCommand_lone_quote_crashes :
    ParseAddCommand "/add \"" = GoResult.crashes := by decide

/-! ## C4 -/

/-- C4 counterexample: a task whose deadline is set to the zero instant is
reported as having no deadline — `HasDeadline` is false there, where the
claim demands it be true for every concrete instant including the
zero/epoch one. -/
theorem hasDeadline_zero_instant_counterexample :
    zeroDeadlineTask.deadline = timeZero ∧
      zeroDeadlineTask.HasDeadline = false := by decide

/-- C4 (amended): `HasDeadline` is true exactly when the deadline differs
from the zero instant; absence of a deadline is represented by the zero
time value itself, so a deadline set to the zero instant is
indistinguishable from "no deadline". -/
theorem hasDeadline_iff_ne_zero (t : Task) :
    t.HasDeadline = true ↔ t.deadline ≠ timeZero := by
  simp [Task.HasDeadline]

/-! ## C10 -/

theorem mk_ne_empty {l : List Char} (h : l ≠ []) : String.mk l ≠ "" := by
  intro he
  apply h
  have h2 : (String.mk l).data = ("" : String).data := by rw [he]
  simpa using h2

theorem splitArgsAux_ne_empty :
    ∀ (cs : List Char) (q : Option Char) (cur : List Char) (s : String),
      s ∈ splitArgsAux cs q cur → s ≠ ""
  | [], _, cur, s => by
    simp only [splitArgsAux]
    split_ifs with h
    · intro hs; simp at hs
    · intro hs
      simp only [List.mem_singleton] at hs
      subst hs
      exact mk_ne_empty (by simpa using h)
  | c :: cs, none, cur, s => by
    simp only [splitArgsAux]
    split_ifs with h1 h2 h3
    · exact splitArgsAux_ne_empty cs (some c) cur s
    · exact splitArgsAux_ne_empty cs none [] s
    · intro hs
      rcases List.mem_cons.mp hs with hs | hs
      · subst hs; exact mk_ne_empty (by simpa using h3)
      · exact splitArgsAux_ne_empty cs none [] s hs
    · exact splitArgsAux_ne_empty cs none (c :: cur) s
  | c :: cs, some q, cur, s => by
    simp only [splitArgsAux]
    split_ifs with h1
    · exact splitArgsAux_ne_empty cs none cur s
    · exact splitArgsAux_ne_empty cs (some q) (c :: cur) s

/-- C10: every element of `SplitCommandArgs text` is a non-empty string —
arguments are only flushed when the accumulator is non-empty, so quoted
empty arguments and runs of delimiters contribute nothing. -/
theorem splitCommandArgs_no_empty (text : String) (arg : String)
    (h : arg ∈ SplitCommandArgs text) : arg ≠ "" :=
  splitArgsAux_ne_empty text.data none [] arg h

/-- C10 witness: on `arg1 "" b` the quoted empty argument vanishes and the
returned arguments are non-empty. -/
theorem splitCommandArgs_no_empty_witness :
    SplitCommandArgs "arg1 \"\" b" = ["arg1", "b"] ∧
      "arg1" ∈ SplitCommandArgs "arg1 \"\" b" ∧ "arg1" ≠ "" :=
  ⟨by decide, by decide,
    splitCommandArgs_no_empty "arg1 \"\" b" "arg1" (by decide)⟩

/-! ## C7 -/

/-- C7: `IsOverdue` holds iff the task has a deadline, its status is not
`done`, and the deadline lies strictly before the evaluation instant;
moreover a done task is never overdue and a postponed task with a past
deadline is overdue. -/
theorem isOverdue_characterization :
    (∀ (t : Task) (now : GoTime),
      t.IsOverdue now = true ↔
        t.HasDeadline = true ∧ t.status ≠ StatusDone ∧
          GoTime.ltb t.deadline now = true) ∧
    (∀ (t : Task) (now : GoTime), t.status = StatusDone →
      t.IsOverdue now = false) ∧
    postponedPastTask.IsOverdue now2025 = true := by
  refine ⟨?_, ?_, by decide⟩
  · intro t now
    by_cases hd : t.deadline = timeZero <;>
      by_cases hs : t.status = StatusDone <;>
        simp [Task.IsOverdue, Task.HasDeadline, Task.IsDone, hd, hs]
  · intro t now hs
    simp [Task.IsOverdue, Task.IsDone, hs]

/-- C7 witness: a done task with a past deadline is not overdue. -/
theorem isOverdue_characterization_witness :
    doneOverdueTask.status = StatusDone ∧
      doneOverdueTask.IsOverdue now2025 = false :=
  ⟨rfl, isOverdue_characterization.2.1 doneOverdueTask now2025 rfl⟩

/-! ## C5 -/

/-- Description of exactly 1000 ASCII characters (= 1000 UTF-8 bytes). -/
def task1000 : Task :=
  { id := 1, userID := 123,
    originalDescription := String.mk (List.replicate 1000 'a'),
    llmProcessedDesc := "", deadline := timeZero, status := StatusActive,
    createdAt := timeZero, updatedAt := timeZero }

/-- Description of exactly 1001 ASCII characters (= 1001 UTF-8 bytes). -/
def task1001 : Task :=
  { task1000 with originalDescription := String.mk (List.replicate 1001 'a') }

/-- A task with `userID = 0`. -/
def userZeroTask : Task :=
  { task1000 with userID := 0, originalDescription := "test task" }

/-- Description of 1000 Cyrillic characters: 1000 characters but 2000
UTF-8 bytes. -/
def cyrillicTask : Task :=
  { task1000 with originalDescription := String.mk (List.replicate 1000 'я') }

/-- C5 counterexample: the length guard counts UTF-8 bytes, not
characters.  A description of exactly 1000 characters — which the claim
says passes — fails with `DescriptionTooLong` when the characters are
two-byte (Cyrillic): `len` in Go is the byte length. -/
theorem validate_byte_length_counterexample :
    cyrillicTask.originalDescription.length = 1000 ∧
      0 < cyrillicTask.userID ∧ cyrillicTask.status = StatusActive ∧
      cyrillicTask.Validate = some ValidationError.descriptionTooLong := by
  refine ⟨by decide, by decide, rfl, by decide⟩

/-- C5 (amended): `Task.Validate` checks, in order: non-positive `userID`
fails `InvalidUser`; trimmed-empty description fails `EmptyDescription`;
description longer than 1000 UTF-8 bytes fails `DescriptionTooLong`
(exactly 1000 bytes passes, 1001 bytes fails); a non-empty status outside
the fixed set fails `InvalidStatus`; an empty status is accepted; a task
violating none of these validates Ok. -/
theorem task_validate_rules :
    (∀ t : Task, t.userID ≤ 0 → t.Validate = some .invalidUser) ∧
    (∀ t : Task, 0 < t.userID →
      goTrimSpace t.originalDescription.data = [] →
      t.Validate = some .emptyDescription) ∧
    (∀ t : Task, 0 < t.userID →
      goTrimSpace t.originalDescription.data ≠ [] →
      goLen t.originalDescription > 1000 →
      t.Validate = some .descriptionTooLong) ∧
    (∀ t : Task, 0 < t.userID →
      goTrimSpace t.originalDescription.data ≠ [] →
      goLen t.originalDescription ≤ 1000 → t.status ≠ "" →
      isValidStatus t.status = false → t.Validate = some .invalidStatus) ∧
    (∀ t : Task, 0 < t.userID →
      goTrimSpace t.originalDescription.data ≠ [] →
      goLen t.originalDescription ≤ 1000 →
      (t.status = "" ∨ isValidStatus t.status = true) →
      t.Validate = none) ∧
    task1000.Validate = none ∧
    task1001.Validate = some .descriptionTooLong := by
  refine ⟨?_, ?_, ?_, ?_, ?_, by decide, by decide⟩
  · intro t h1
    unfold Task.Validate
    rw [if_pos h1]
  · intro t h1 h2
    unfold Task.Validate
    rw [if_neg (by omega), if_pos h2]
  · intro t h1 h2 h3
    unfold Task.Validate
    rw [if_neg (by omega), if_neg h2, if_pos h3]
  · intro t h1 h2 h3 h4 h5
    unfold Task.Validate
    rw [if_neg (by omega), if_neg h2, if_neg (by omega),
      if_pos ⟨h4, by simp [h5]⟩]
  · intro t h1 h2 h3 h4
    unfold Task.Validate
    rw [if_neg (by omega), if_neg h2, if_neg (by omega), if_neg ?_]
    rcases h4 with h4 | h4
    · exact fun hc => hc.1 h4
    · exact fun hc => hc.2 (by simp [h4])

/-- C5 witness: a task with `userID = 0` fails with `InvalidUser`. -/
theorem task_validate_rules_witness :
    userZeroTask.userID ≤ 0 ∧
      userZeroTask.Validate = some ValidationError.invalidUser :=
  ⟨by decide, task_validate_rules.1 userZeroTask (by decide)⟩

/-! ## C2 -/

/-- Active task with the early deadline 2025-01-01 (claim's D1). -/
def exEarlyDeadline : Task :=
  { id := 11, userID := 7, originalDescription := "task with deadline D1",
    llmProcessedDesc := "", deadline := ⟨2025, 1, 1, 23, 59, 59⟩,
    status := StatusActive, createdAt := ⟨2024, 12, 20, 10, 0, 0⟩,
    updatedAt := ⟨2024, 12, 20, 10, 0, 0⟩ }

/-- Active task with no deadline, created 2025-01-05. -/
def exNoDeadline : Task :=
  { id := 12, userID := 7, originalDescription := "task without deadline",
    llmProcessedDesc := "", deadline := timeZero, status := StatusActive,
    createdAt := ⟨2025, 1, 5, 12, 0, 0⟩, updatedAt := ⟨2025, 1, 5, 12, 0, 0⟩ }

/-- Active task with the late deadline 2025-01-10 (claim's D2). -/
def exLateDeadline : Task :=
  { id := 13, userID := 7, originalDescription := "task with deadline D2",
    llmProcessedDesc := "", deadline := ⟨2025, 1, 10, 23, 59, 59⟩,
    status := StatusActive, createdAt := ⟨2024, 12, 21, 10, 0, 0⟩,
    updatedAt := ⟨2024, 12, 21, 10, 0, 0⟩ }

/-- C2: `GetActiveTasks` returns exactly the stored rows of the user with
status `active` (a permutation of that filter), ordered ascending by the
key "deadline if present else created_at" — and on the claim's concrete
three tasks the deadline-less task is interleaved between the two
deadline-bearing ones. -/
theorem getActiveTasks_ordering :
    (∀ (userID : Int) (db : TaskDB),
      List.Perm (GetActiveTasks userID db) (activeRows userID db) ∧
        List.Sorted taskLE (GetActiveTasks userID db)) ∧
    GetActiveTasks 7 [exNoDeadline, exLateDeadline, exEarlyDeadline] =
      [exEarlyDeadline, exNoDeadline, exLateDeadline] := by
  refine ⟨fun userID db => ⟨?_, ?_⟩, by decide⟩
  · exact List.perm_insertionSort taskLE (activeRows userID db)
  · exact List.sorted_insertionSort taskLE (activeRows userID db)

/-! ## C8 -/

theorem countP_id_eq_zero_iff (db : TaskDB) (id : Int) :
    db.countP (fun r => decide (r.id = id)) = 0 ↔ ∀ r ∈ db, r.id ≠ id := by
  rw [List.countP_eq_zero]
  simp

/-- C8: `UpdateTask` (on a task that validates) and `DeleteTask` fail with
`notFound` exactly when no stored row has the given id (zero rows
affected); when a matching row exists, delete succeeds unconditionally and
update succeeds provided the task validates. -/
theorem update_delete_notFound :
    (∀ (db : TaskDB) (t : Task) (now : GoTime), t.Validate = none →
      (UpdateTask db t now = .error .notFound ↔ ∀ r ∈ db, r.id ≠ t.id)) ∧
    (∀ (db : TaskDB) (id : Int),
      DeleteTask db id = .error .notFound ↔ ∀ r ∈ db, r.id ≠ id) ∧
    (∀ (db : TaskDB) (id : Int), (∃ r ∈ db, r.id = id) →
      DeleteTask db id = .ok (db.filter (fun r => decide (r.id ≠ id)))) ∧
    (∀ (db : TaskDB) (t : Task) (now : GoTime), t.Validate = none →
      (∃ r ∈ db, r.id = t.id) →
      ∃ db2, UpdateTask db t now = .ok db2) := by
  refine ⟨?_, ?_, ?_, ?_⟩
  · intro db t now hv
    unfold UpdateTask
    rw [hv]
    by_cases hc : db.countP (fun r => decide (r.id = t.id)) = 0
    · rw [if_pos hc]
      exact iff_of_true rfl ((countP_id_eq_zero_iff db t.id).mp hc)
    · rw [if_neg hc]
      exact iff_of_false (by simp)
        (fun hall => hc ((countP_id_eq_zero_iff db t.id).mpr hall))
  · intro db id
    unfold DeleteTask
    by_cases hc : db.countP (fun r => decide (r.id = id)) = 0
    · rw [if_pos hc]
      exact iff_of_true rfl ((countP_id_eq_zero_iff db id).mp hc)
    · rw [if_neg hc]
      exact iff_of_false (by simp)
        (fun hall => hc ((countP_id_eq_zero_iff db id).mpr hall))
  · intro db id hex
    unfold DeleteTask
    rw [if_neg ?_]
    intro hc
    obtain ⟨r, hr, hid⟩ := hex
    exact (countP_id_eq_zero_iff db id).mp hc r hr hid
  · intro db t now hv hex
    have hc : db.countP (fun r => decide (r.id = t.id)) ≠ 0 := by
      intro hc
      obtain ⟨r, hr, hid⟩ := hex
      exact (countP_id_eq_zero_iff db t.id).mp hc r hr hid
    refine ⟨db.map (fun r =>
      if r.id = t.id then applyUpdate r { t with updatedAt := now } else r), ?_⟩
    unfold UpdateTask
    rw [hv, if_neg hc]

/-- A stored task used by the C8 witness. -/
def sampleTask : Task :=
  { id := 5, userID := 77, originalDescription := "water the plants",
    llmProcessedDesc := "", deadline := timeZero, status := StatusActive,
    createdAt := ⟨2025, 3, 1, 8, 0, 0⟩, updatedAt := ⟨2025, 3, 1, 8, 0, 0⟩ }

/-- C8 witness: with a one-row store holding id 5, delete succeeds and
update of a valid task with id 5 succeeds; with the row absent, delete
reports `notFound`. -/
theorem update_delete_notFound_witness :
    sampleTask.Validate = none ∧
      (∃ r ∈ [sampleTask], r.id = sampleTask.id) ∧
      DeleteTask [sampleTask] sampleTask.id =
        .ok ([sampleTask].filter (fun r => decide (r.id ≠ sampleTask.id))) ∧
      (∃ db2, UpdateTask [sampleTask] sampleTask now2025 = .ok db2) ∧
      (DeleteTask [] sampleTask.id = .error .notFound ↔
        ∀ r ∈ ([] : TaskDB), r.id ≠ sampleTask.id) :=
  ⟨by decide, ⟨sampleTask, by simp, rfl⟩,
    update_delete_notFound.2.2.1 [sampleTask] sampleTask.id
      ⟨sampleTask, by simp, rfl⟩,
    update_delete_notFound.2.2.2 [sampleTask] sampleTask now2025 (by decide)
      ⟨sampleTask, by simp, rfl⟩,
    update_delete_notFound.2.1 [] sampleTask.id⟩

/-! ## C3 -/

theorem firstSome_eq_of_getD
    (fs : List (List Char → Option (Nat × Nat × Nat))) (s : List Char) :
    ∀ (i : Nat) (v : Nat × Nat × Nat),
      (fs.getD i noFormat) s = some v →
      (∀ j, j < i → (fs.getD j noFormat) s = none) →
      firstSome fs s = some v := by
  induction fs with
  | nil =>
    intro i v hv _
    simp [List.getD, noFormat] at hv
  | cons f rest ih =>
    intro i v hv hnone
    cases i with
    | zero =>
      simp only [List.getD_cons_zero] at hv
      simp [firstSome, hv]
    | succ n =>
      have h0 : f s = none := by
        simpa using hnone 0 (Nat.succ_pos n)
      simp only [firstSome, h0]
      exact ih n v (by simpa using hv)
        (fun j hj => by simpa using hnone (j + 1) (Nat.succ_lt_succ hj))

theorem getD_dateFormats_nil (i : Nat) :
    (dateFormats.getD i noFormat) [] = none := by
  match i with
  | 0 => rfl
  | 1 => rfl
  | 2 => rfl
  | 3 => rfl
  | 4 => rfl
  | 5 => rfl
  | n + 6 => rfl

/-- C3: `ParseDate` tries the six formats of `dateFormats` (YYYY-MM-DD,
DD.MM.YYYY, DD/MM/YYYY, YYYY/MM/DD, DD-MM-YYYY, MM/DD/YYYY, in source
order) and the first success wins; every successful result carries the
time-of-day 23:59:59; and the ambiguous `01/02/2003` parses as
1 February 2003 (DD/MM/YYYY), not 2 January 2003 (MM/DD/YYYY). -/
theorem parseDate_priority_and_endOfDay :
    (∀ (s : String) (i : Nat) (y m d : Nat),
      (dateFormats.getD i noFormat) (goTrimSpace s.data) = some (y, m, d) →
      (∀ j, j < i →
        (dateFormats.getD j noFormat) (goTrimSpace s.data) = none) →
      ParseDate s = .ok ⟨y, m, d, 23, 59, 59⟩) ∧
    (∀ (s : String) (t : GoTime), ParseDate s = .ok t →
      t.hour = 23 ∧ t.minute = 59 ∧ t.second = 59) ∧
    ParseDate "01/02/2003" = .ok ⟨2003, 2, 1, 23, 59, 59⟩ := by
  refine ⟨?_, ?_, by decide⟩
  · intro s i y m d hv hnone
    have hne : goTrimSpace s.data ≠ [] := by
      intro h0
      rw [h0, getD_dateFormats_nil i] at hv
      exact Option.noConfusion hv
    have hf : firstSome dateFormats (goTrimSpace s.data) = some (y, m, d) :=
      firstSome_eq_of_getD dateFormats (goTrimSpace s.data) i (y, m, d) hv hnone
    unfold ParseDate
    rw [if_neg hne, hf]
  · intro s t h
    unfold ParseDate at h
    split at h
    · exact absurd h (by simp)
    · split at h
      · rcases h with ⟨⟩
        exact ⟨rfl, rfl, rfl⟩
      · exact absurd h (by simp)

/-- C3 witness: the first-listed format wins immediately for
`2025-07-15`. -/
theorem parseDate_priority_witness :
    (dateFormats.getD 0 noFormat) (goTrimSpace "2025-07-15".data) =
      some (2025, 7, 15) ∧
    ParseDate "2025-07-15" = .ok ⟨2025, 7, 15, 23, 59, 59⟩ :=
  ⟨by decide,
    parseDate_priority_and_endOfDay.1 "2025-07-15" 0 2025 7 15 (by decide)
      (fun j hj => absurd hj (Nat.not_lt_zero j))⟩

/-! ## C9 -/

/-- C9 counterexample: the `InvalidFormat` error carries only three format
names, not the six formats of section 4.1 that the parser supports. -/
theorem parseDate_shown_formats_counterexample :
    ParseDate "not-a-date" = .error (.invalidFormat shownFormats) ∧
      shownFormats ≠ allSixFormats ∧
      shownFormats.length = 3 ∧ allSixFormats.length = 6 := by decide

/-- C9 (amended): `ParseDate` fails with `InvalidInput` exactly on inputs
that trim to empty, and with `InvalidFormat` on non-empty inputs matching
none of the six formats; the `InvalidFormat` error carries the list of the
first three supported formats (YYYY-MM-DD, DD.MM.YYYY, DD/MM/YYYY) for
user display — not all six. -/
theorem parseDate_error_cases :
    (∀ s : String, goTrimSpace s.data = [] →
      ParseDate s = .error .invalidInput) ∧
    (∀ s : String, goTrimSpace s.data ≠ [] →
      firstSome dateFormats (goTrimSpace s.data) = none →
      ParseDate s = .error (.invalidFormat shownFormats)) ∧
    shownFormats = ["YYYY-MM-DD", "DD.MM.YYYY", "DD/MM/YYYY"] := by
  refine ⟨?_, ?_, rfl⟩
  · intro s h
    unfold ParseDate
    rw [if_pos h]
  · intro s h1 h2
    unfold ParseDate
    rw [if_neg h1, h2]

/-- C9 witness: a non-empty input matching no format fails with the
three-format `InvalidFormat` error. -/
theorem parseDate_error_cases_witness :
    goTrimSpace "next week".data ≠ [] ∧
      firstSome dateFormats (goTrimSpace "next week".data) = none ∧
      ParseDate "next week" = .error (.invalidFormat shownFormats) :=
  ⟨by decide, by decide,
    parseDate_error_cases.2.1 "next week" (by decide) (by decide)⟩

/-! ## C6 -/

/-- C6: `ParseAddCommand` strips a leading `/add`, extracts the deadline
clause `\s+срок:\s*(\S+)` wherever it occurs — propagating `ParseDate`
errors on the captured token unchanged — removes every clause occurrence,
and strips one wrapping pair of matching quotes from the trimmed
remainder; concretely, `/add "Buy groceries and cook dinner" срок:
2025-07-15` yields the unquoted description and the deadline 2025-07-15
at 23:59:59. -/
theorem parseAddCommand_clause_extraction :
    (∀ (text : String) (pre tok rest : List Char) (e : UtilErr),
      goTrimSpace text.data ≠ [] →
      stripAddPrefix (goTrimSpace text.data) ≠ [] →
      findClause (stripAddPrefix (goTrimSpace text.data)) =
        some (pre, tok, rest) →
      ParseDate (String.mk tok) = .error e →
      ParseAddCommand text = .err e) ∧
    ParseAddCommand "/add \"Buy groceries and cook dinner\" срок: 2025-07-15" =
      .ok ⟨"Buy groceries and cook dinner", ⟨2025, 7, 15, 23, 59, 59⟩, true⟩ := by
  refine ⟨?_, by decide⟩
  intro text pre tok rest e h1 h2 h3 h4
  unfold ParseAddCommand
  rw [if_neg h1, if_neg h2, h3]
  dsimp only
  rw [h4]

/-- C6 witness: on `/add x срок: 9999` the clause is found, its token
`9999` matches no date format, and that `ParseDate` error is returned
unchanged. -/
theorem parseAddCommand_clause_extraction_witness :
    findClause (stripAddPrefix (goTrimSpace "/add x срок: 9999".data)) =
      some (['x'], ['9', '9', '9', '9'], []) ∧
    ParseDate (String.mk ['9', '9', '9', '9']) =
      .error (.invalidFormat shownFormats) ∧
    ParseAddCommand "/add x срок: 9999" =
      .err (.invalidFormat shownFormats) :=
  ⟨by decide, by decide,
    parseAddCommand_clause_extraction.1 "/add x срок: 9999" ['x']
      ['9', '9', '9', '9'] [] (.invalidFormat shownFormats) (by decide)
      (by decide) (by decide) (by decide)⟩
